import Mathlib

/-!
Verification of the sms-gateway AT-protocol core.

Shallow embedding of the Go sources:
  * `src/at/at.go`, `src/at/tokenizer.go` — wire constants, `Splitter`, `Classify`
  * `src/unnamed/part_005` / `part_004` — the command `Loop`, `exec`, `execDirect`,
    `init`, `waitForSIMReady`
  * `src/modem/sms.go` — `SendSMS`
  * `src/unnamed/part_002` — error values (`ErrLoopRunning`, `ErrSIMPinRequired`, ...)

Byte strings are modelled as `List Char` (all protocol text is ASCII).
-/

/-! ## String helpers (models of Go standard-library functions) -/

/-- Model of Go `bytes.HasPrefix(s, pat)` / `strings.HasPrefix(s, pat)`:
`startsWith pat s` is Go `bytes.HasPrefix(s, pat)` / `strings.HasPrefix(s, pat)`:
`true` iff `pat` begins `s`. -/
def startsWith : List Char → List Char → Bool
  | [], _ => true
  | _ :: _, [] => false
  | p :: ps, c :: cs => if p = c then startsWith ps cs else false

/-- Model of Go `bytes.Index(s, pat)`, as `indexOfSeq pat s`: the index of the first
occurrence of `pat` inside `s`, or `none`. -/
def indexOfSeq (pat : List Char) : List Char → Option Nat
  | [] => if pat = [] then some 0 else none
  | c :: rest =>
    if startsWith pat (c :: rest) then some 0
    else (indexOfSeq pat rest).map (· + 1)

/-- Model of Go `strings.Contains(s, pat)`, as `containsSeq pat s`. -/
def containsSeq (pat s : List Char) : Bool :=
  (indexOfSeq pat s).isSome

/-- Code points accepted by Go `unicode.IsSpace` (the White_Space property). -/
def spaceCodes : List Nat :=
  [9, 10, 11, 12, 13, 32, 0x85, 0xA0, 0x1680,
   0x2000, 0x2001, 0x2002, 0x2003, 0x2004, 0x2005, 0x2006, 0x2007,
   0x2008, 0x2009, 0x200A, 0x2028, 0x2029, 0x202F, 0x205F, 0x3000]

/-- Models Go `unicode.IsSpace`. -/
def isSpace (c : Char) : Bool :=
  spaceCodes.contains c.toNat

/-- Leading-whitespace trim, models Go `strings.TrimLeft(s, whitespace)`. -/
def trimLeft (s : List Char) : List Char :=
  s.dropWhile isSpace

/-- Models Go `strings.TrimSpace`: drop leading and trailing whitespace. -/
def trimSpace (s : List Char) : List Char :=
  ((s.dropWhile isSpace).reverse.dropWhile isSpace).reverse

/-! ## Wire constants, from `src/at/at.go` and `src/unnamed/part_000` -/

def CRLF : List Char := "\r\n".data
def Prompt : List Char := "> ".data
def CtrlZ : List Char := "\x1A".data

def OK : List Char := "OK".data
def ERROR : List Char := "ERROR".data
def NoCarrier : List Char := "NO CARRIER".data
def NoDialtone : List Char := "NO DIALTONE".data
def Busy : List Char := "BUSY".data
def NoAnswer : List Char := "NO ANSWER".data
def CmeError : List Char := "+CME ERROR:".data
def CmsError : List Char := "+CMS ERROR:".data
def SimReady : List Char := "+CPIN: READY".data
def SimPin : List Char := "+CPIN: SIM PIN".data

def CmdAt : List Char := "AT".data
def CmdEchoOff : List Char := "ATE0".data
def CmdSetTextMode : List Char := "AT+CMGF=1".data
def CmdVerboseErrors : List Char := "AT+CMEE=2".data
def CmdSimStatus : List Char := "AT+CPIN?".data

def UrcNewMsg : List Char := "+CMTI:".data
def UrcCall : List Char := "RING".data

/-! ## Classifier, from `src/at/tokenizer.go` (`Classify`) -/

/-- The `ResponseType` enum from `src/at/at.go`. -/
inductive ResponseType
  | TypeFinal
  | TypeURC
  | TypeData
  | TypePrompt
deriving DecidableEq, Repr

/-- The `Classify` function from `src/at/tokenizer.go` lines 45-65: exact prompt match first,
then the six final literals, then the CME/CMS error and URC prefix checks. -/
def Classify (line : List Char) : ResponseType :=
  if line = Prompt then .TypePrompt
  else if line = OK ∨ line = ERROR ∨ line = NoCarrier ∨ line = NoDialtone ∨
          line = Busy ∨ line = NoAnswer then .TypeFinal
  else if startsWith CmeError line = true ∨ startsWith CmsError line = true then .TypeFinal
  else if startsWith UrcNewMsg line = true ∨ line = UrcCall then .TypeURC
  else .TypeData

/-! ## Tokenizer, from `src/at/tokenizer.go` (`Splitter`) -/

/-- The `Splitter` function from `src/at/tokenizer.go` lines 21-40.  Returns
`(advance, token)`; `none` means "no token" (Go returns a nil token and a nil
error in every branch, so the error result is omitted). -/
def Splitter (data : List Char) (atEOF : Bool) : Nat × Option (List Char) :=
  if atEOF = true ∧ data = [] then (0, none)
  else if startsWith Prompt data then (Prompt.length, some (data.take Prompt.length))
  else
    match indexOfSeq CRLF data with
    | some i => (i + CRLF.length, some (data.take i))
    | none => if atEOF = true then (data.length, some data) else (0, none)

/-- Fuel-indexed driver: repeatedly apply `Splitter` with `atEOF = true` (the
whole stream is in hand), collecting emitted tokens, as `bufio.Scanner` does
when run to exhaustion over a complete input. -/
def splitAllGo : Nat → List Char → List (List Char)
  | 0, _ => []
  | fuel + 1, data =>
    match Splitter data true with
    | (_, none) => []
    | (adv, some tok) => tok :: splitAllGo fuel (data.drop adv)

/-- Run the `Splitter` to exhaustion over a complete input. -/
def splitAll (data : List Char) : List (List Char) :=
  splitAllGo data.length data

/-! ## Command Loop model, from `src/unnamed/part_005` lines 287-432
(`part_004` lines 144-295 is the same loop body with an added
`loopRunning` guard at entry, modelled separately below). -/

/-- Error values surfaced by the modem layer (`src/unnamed/part_002` and the
`errors.New(token)` / `fmt.Errorf` sites in `part_005`). -/
inductive ExecErr
  | terminal (tok : List Char)      -- errors.New(token) for a non-OK final token
  | timeout                         -- ctx deadline elapsed
  | eofErr                          -- io.EOF
  | writeFailed                     -- transport write error
  | alreadyClosed                   -- ErrAlreadyClosed
  | notInitialized                  -- ErrNotInitialized
  | unexpectedResponse (resp : List Char) -- fmt.Errorf("unexpected response: %q", resp)
  | loopRunning                     -- ErrLoopRunning
deriving DecidableEq, Repr

/-- The `commandRequest` struct from `part_005`: the command text plus an identifier
standing for its single-use `respChan`. -/
structure commandRequest where
  cmd : List Char
  id : Nat
deriving DecidableEq, Repr

/-- The `commandResponse` struct from `part_005`: joined response text and optional error. -/
structure commandResponse where
  response : List Char
  err : Option ExecErr
deriving DecidableEq, Repr

/-- The Loop's mutable state: the in-flight command and its accumulated lines
(`currentCmd` / `currentLines`), the buffered URC channel contents, and the
responses it has sent into request `respChan`s, tagged by request id. -/
structure LoopState where
  currentCmd : Option commandRequest
  currentLines : List (List Char)
  urcChan : List (List Char)
  delivered : List (Nat × commandResponse)
deriving DecidableEq, Repr

/-- Capacity of the URC channel: `make(chan string, 100)` in `part_005`. -/
def urcCap : Nat := 100

/-- The non-blocking URC send (`select { case m.urcChan <- token: default: }`):
append when the buffer has room, drop otherwise. -/
def dispatchURC (q : List (List Char)) (tok : List Char) : List (List Char) :=
  if q.length < urcCap then q ++ [tok] else q

/-- The `switch respType` body of the Loop's token case
(`part_005` lines 356-407). -/
def dispatchToken (s : LoopState) (tok : List Char) : LoopState :=
  match Classify tok with
  | .TypeURC =>
      { s with urcChan := dispatchURC s.urcChan tok }
  | .TypeFinal =>
      match s.currentCmd with
      | some req =>
          let lines := s.currentLines ++ [tok]
          let resp := List.intercalate ['\n'] lines
          let res : commandResponse :=
            if tok = OK then ⟨resp, none⟩ else ⟨resp, some (.terminal tok)⟩
          { s with currentCmd := none, currentLines := [],
                   delivered := s.delivered ++ [(req.id, res)] }
      | none => s
  | .TypeData =>
      match s.currentCmd with
      | some _ => { s with currentLines := s.currentLines ++ [tok] }
      | none => s
  | .TypePrompt =>
      match s.currentCmd with
      | some req =>
          { s with currentCmd := none, currentLines := [],
                   delivered := s.delivered ++
                     [(req.id, ⟨List.intercalate ['\n'] (s.currentLines ++ [tok]), none⟩)] }
      | none => s

/-- The post-switch deadline check (`part_005` lines 409-420): if a command is
still current and its context has expired, resolve it with a timeout error. -/
def checkCmdTimeout (s : LoopState) (ctxExpired : Bool) : LoopState :=
  match s.currentCmd with
  | some req =>
      if ctxExpired then
        { s with currentCmd := none, currentLines := [],
                 delivered := s.delivered ++ [(req.id, ⟨[], some .timeout⟩)] }
      else s
  | none => s

/-- One arm of the Loop's `select` (`part_005` lines 323-430).  `recvCmd`
carries whether the transport write succeeded; `recvToken` carries whether the
current command's context had expired when the deadline check ran. -/
inductive LoopEvent
  | recvCmd (req : commandRequest) (writeOk : Bool)
  | recvToken (tok : List Char) (ctxExpired : Bool)
deriving DecidableEq, Repr

/-- One iteration of the Loop's `select`.  Note the `recvCmd` arm installs the
new request unconditionally — the code has no guard on `currentCmd`. -/
def loopStep (s : LoopState) : LoopEvent → LoopState
  | .recvCmd req writeOk =>
      if writeOk then
        { s with currentCmd := some req, currentLines := [] }
      else
        { s with currentCmd := none, currentLines := [],
                 delivered := s.delivered ++ [(req.id, ⟨[], some .writeFailed⟩)] }
  | .recvToken tok ctxExpired =>
      checkCmdTimeout (dispatchToken s tok) ctxExpired

/-- Feed a list of tokens through the Loop's dispatch (no deadline expiry). -/
def runTokens (s : LoopState) : List (List Char) → LoopState
  | [] => s
  | t :: ts => runTokens (dispatchToken s t) ts

/-- The scanner goroutine (`part_005` lines 296-317): tokenize the wire bytes
and forward the non-empty tokens (`if token != ""`) to the Loop. -/
def loopFeed (wire : List Char) : List (List Char) :=
  (splitAll wire).filter (fun t => !(t.isEmpty))

/-- The response the Loop sends into a request's `respChan` after processing
`toks`, starting with that request freshly accepted (or `none` when the stream
never resolves the command). -/
def loopResponse (req : commandRequest) (toks : List (List Char)) :
    Option commandResponse :=
  match (runTokens ⟨some req, [], [], []⟩ toks).delivered with
  | [] => none
  | (_, r) :: _ => some r

/-- The final `select` of `exec` (`part_005` lines 497-502): the caller suspends on
`respChan` with `ctx.Done()` as a live alternative; if the Loop never delivers,
the deadline arm returns a timeout error (`"command timeout: ..."`, empty text). -/
def execAwait (loopResp : Option commandResponse) : commandResponse :=
  match loopResp with
  | some r => r
  | none => ⟨[], some .timeout⟩

/-! ## SMS sender, from `src/modem/sms.go` -/

/-- The first-phase command text: `fmt.Sprintf("AT+CMGS=%q-style", recipient)`. -/
def cmgsCmd (recipient : List Char) : List Char :=
  "AT+CMGS=\"".data ++ recipient ++ "\"".data

/-- What `exec` puts on the wire (`part_005` line 337):
`strings.TrimSpace(cmd) + "\r"`. -/
def wireOf (cmd : List Char) : List Char :=
  trimSpace cmd ++ ['\r']

/-- Result of one `m.exec` call for a command whose response bytes are `wire`:
the Loop accepts the request, processes the tokenized non-empty lines, and the
caller receives either the delivered response or a timeout. -/
def execModel (req : commandRequest) (wire : List Char) : commandResponse :=
  execAwait (loopResponse req (loopFeed wire))

/-- Errors returned by `SendSMS` (the four `fmt.Errorf` sites in `sms.go`). -/
inductive SmsError
  | cmgsFailed (e : ExecErr)              -- "AT+CMGS command failed: %w"
  | noPrompt (resp : List Char)           -- "did not receive SMS prompt, got: %q"
  | sendFailed (e : ExecErr)              -- "SMS send failed: %w"
  | unexpectedSmsResponse (resp : List Char) -- "unexpected SMS response: %s"
deriving DecidableEq, Repr

/-- The `SendSMS` method from `src/modem/sms.go` lines 27-53, against a transport whose
reads for the two phases tokenize from `wire1` and `wire2`.  Returns the exact
byte strings written to the transport, in order, and the error result. -/
def SendSMS (recipient message : List Char) (wire1 wire2 : List Char) :
    List (List Char) × Option SmsError :=
  match (execModel ⟨cmgsCmd recipient, 1⟩ wire1).err with
  | some e => ([wireOf (cmgsCmd recipient)], some (.cmgsFailed e))
  | none =>
    if containsSeq Prompt (execModel ⟨cmgsCmd recipient, 1⟩ wire1).response then
      match (execModel ⟨message ++ CtrlZ, 2⟩ wire2).err with
      | some e =>
          ([wireOf (cmgsCmd recipient), wireOf (message ++ CtrlZ)],
           some (.sendFailed e))
      | none =>
        if containsSeq OK (execModel ⟨message ++ CtrlZ, 2⟩ wire2).response then
          ([wireOf (cmgsCmd recipient), wireOf (message ++ CtrlZ)], none)
        else
          ([wireOf (cmgsCmd recipient), wireOf (message ++ CtrlZ)],
           some (.unexpectedSmsResponse
             (execModel ⟨message ++ CtrlZ, 2⟩ wire2).response))
    else
      ([wireOf (cmgsCmd recipient)],
       some (.noPrompt (execModel ⟨cmgsCmd recipient, 1⟩ wire1).response))

/-! ## Bring-up sequencer, from `src/unnamed/part_005` lines 89-261 -/

/-- Pop the next scripted `execDirect` result; an exhausted script behaves as a
silent modem (context deadline elapses → timeout, empty text). -/
def execDirectS (script : List commandResponse) :
    commandResponse × List commandResponse :=
  match script with
  | [] => (⟨[], some .timeout⟩, [])
  | r :: rest => (r, rest)

/-- The `expectOkDirect` check (`part_005` lines 207-216) applied to one result:
propagate the error, else require "OK" in the joined text. -/
def expectOkRes (r : commandResponse) : Option ExecErr :=
  match r.err with
  | some e => some e
  | none =>
    if containsSeq OK r.response then none
    else some (.unexpectedResponse r.response)

/-- The `PollConfig` struct from `part_005` lines 44-48; durations in nanoseconds
(Go `time.Duration`). -/
structure PollConfig where
  Interval : Int
  Timeout : Int
  MaxRetries : Int
deriving DecidableEq, Repr

/-- The defaulting at the top of `waitForSIMReady` (`part_005` lines 225-233):
interval defaults to 500ms, timeout to 30s, and `maxRetries` derives from
`timeout / interval` when unset. -/
def resolvePoll (c : PollConfig) : Int × Int × Nat :=
  let i := if c.Interval ≤ 0 then 500000000 else c.Interval
  let t := if c.Timeout ≤ 0 then 30000000000 else c.Timeout
  let mr := if c.MaxRetries ≤ 0 then Int.tdiv t i else c.MaxRetries
  (i, t, mr.toNat)

/-- Errors produced by `init` (`part_005` lines 89-136), one per failure site. -/
inductive InitError
  | notResponding (e : ExecErr)
  | echoFailed (e : ExecErr)
  | verboseFailed (e : ExecErr)
  | simQueryFailed (e : ExecErr)
  | simPinRequired                       -- ErrSIMPinRequired
  | pinFailed (e : ExecErr)
  | simNotReady (maxRetries : Nat)       -- "SIM not ready after %d retries"
  | simStatusFailed (e : ExecErr)        -- structural failure while polling
  | unsupportedSimState (resp : List Char)
  | textModeFailed (e : ExecErr)
deriving DecidableEq, Repr

/-- The polling loop of `waitForSIMReady` (`part_005` lines 239-260), with the
remaining allowed polls as fuel: `retries` from 1 to `maxRetries` each issue one
`AT+CPIN?` exchange; exceeding `maxRetries` fails.  Structural errors
(`ErrAlreadyClosed` / `ErrNotInitialized`) abort; other failures retry. -/
def pollSIM (maxRetries : Nat) :
    Nat → List commandResponse → List (List Char) →
    List (List Char) × List commandResponse × Option InitError
  | 0, script, cmds => (cmds, script, some (.simNotReady maxRetries))
  | fuel + 1, script, cmds =>
    let (r, rest) := execDirectS script
    let cmds' := cmds ++ [CmdSimStatus]
    match r.err with
    | some e =>
      if e = .alreadyClosed ∨ e = .notInitialized then
        (cmds', rest, some (.simStatusFailed e))
      else pollSIM maxRetries fuel rest cmds'
    | none =>
      if containsSeq SimReady r.response then (cmds', rest, none)
      else pollSIM maxRetries fuel rest cmds'

/-- The `waitForSIMReady` poll (`part_005` lines 218-261). -/
def waitForSIMReady (cfg : PollConfig) (script : List commandResponse) :
    List (List Char) × List commandResponse × Option InitError :=
  let mr := (resolvePoll cfg).2.2
  pollSIM mr mr script []

/-- The PIN-unlock command text (`part_005` line 117):
`fmt.Sprintf("AT+CPIN=%q-style", pin)`. -/
def pinUnlockCmd (pin : List Char) : List Char :=
  "AT+CPIN=\"".data ++ pin ++ "\"".data

/-- The `init` sequence (`part_005` lines 89-136) over a script of `execDirect` results.
Returns the commands issued in order, the unconsumed script, and the outcome. -/
def initModem (simPIN : List Char) (script : List commandResponse) :
    List (List Char) × List commandResponse × Option InitError :=
  let (r1, s1) := execDirectS script
  match expectOkRes r1 with
  | some e => ([CmdAt], s1, some (.notResponding e))
  | none =>
  let (r2, s2) := execDirectS s1
  match expectOkRes r2 with
  | some e => ([CmdAt, CmdEchoOff], s2, some (.echoFailed e))
  | none =>
  let (r3, s3) := execDirectS s2
  match expectOkRes r3 with
  | some e => ([CmdAt, CmdEchoOff, CmdVerboseErrors], s3, some (.verboseFailed e))
  | none =>
  let (r4, s4) := execDirectS s3
  let cmds4 := [CmdAt, CmdEchoOff, CmdVerboseErrors, CmdSimStatus]
  match r4.err with
  | some e => (cmds4, s4, some (.simQueryFailed e))
  | none =>
    if containsSeq SimReady r4.response then
      let (r7, s7) := execDirectS s4
      match expectOkRes r7 with
      | some e => (cmds4 ++ [CmdSetTextMode], s7, some (.textModeFailed e))
      | none => (cmds4 ++ [CmdSetTextMode], s7, none)
    else if containsSeq SimPin r4.response then
      if simPIN = [] then (cmds4, s4, some .simPinRequired)
      else
        let (r5, s5) := execDirectS s4
        match expectOkRes r5 with
        | some e => (cmds4 ++ [pinUnlockCmd simPIN], s5, some (.pinFailed e))
        | none =>
          let (pollCmds, s6, e6) := waitForSIMReady ⟨0, 0, 0⟩ s5
          match e6 with
          | some e => (cmds4 ++ [pinUnlockCmd simPIN] ++ pollCmds, s6, some e)
          | none =>
            let (r7, s7) := execDirectS s6
            match expectOkRes r7 with
            | some e =>
                (cmds4 ++ [pinUnlockCmd simPIN] ++ pollCmds ++ [CmdSetTextMode],
                 s7, some (.textModeFailed e))
            | none =>
                (cmds4 ++ [pinUnlockCmd simPIN] ++ pollCmds ++ [CmdSetTextMode],
                 s7, none)
    else (cmds4, s4, some (.unsupportedSimState r4.response))

/-! ## Loop entry guard, from `src/unnamed/part_004` lines 144-151 -/

/-- The Loop-ownership flag on the `Modem` (`loopRunning` in `part_004`). -/
structure LoopGuard where
  loopRunning : Bool
deriving DecidableEq, Repr

/-- The entry of `Loop` in `part_004`: reject when already running, else mark
running. -/
def loopAcquire (m : LoopGuard) : Except ExecErr LoopGuard :=
  if m.loopRunning then .error .loopRunning else .ok ⟨true⟩

/-! ## Constant unfoldings -/

theorem Prompt_eq : Prompt = ['>', ' '] := rfl

theorem CRLF_eq : CRLF = ['\r', '\n'] := rfl

/-! ## Lemmas about `startsWith` and `indexOfSeq` -/

theorem startsWith_append_self : ∀ (p t : List Char), startsWith p (p ++ t) = true
  | [], _ => rfl
  | c :: ps, t => by
      simpa [startsWith] using startsWith_append_self ps t

theorem startsWith_exists {p s : List Char} (h : startsWith p s = true) :
    ∃ t, s = p ++ t := by
  induction p generalizing s with
  | nil => exact ⟨s, rfl⟩
  | cons c ps ih =>
    cases s with
    | nil => simp [startsWith] at h
    | cons d rest =>
      unfold startsWith at h
      by_cases hc : c = d
      · subst hc
        obtain ⟨t, ht⟩ := ih (by simpa using h)
        exact ⟨t, by rw [ht]; rfl⟩
      · rw [if_neg hc] at h; cases h

theorem ne_of_startsWith {p s b : List Char}
    (h : startsWith p s = true) (hb : startsWith p b = false) : s ≠ b := by
  intro e
  subst e
  rw [h] at hb
  cases hb

theorem startsWith_mutual : ∀ (q p s : List Char), startsWith p s = true →
    startsWith q s = true → q.length ≤ p.length → startsWith q p = true := by
  intro q
  induction q with
  | nil => intro p s _ _ _; rfl
  | cons c qs ih =>
    intro p s hp hq hlen
    cases p with
    | nil => simp at hlen
    | cons d ps =>
      cases s with
      | nil => simp [startsWith] at hp
      | cons e rest =>
        unfold startsWith at hp hq ⊢
        by_cases hde : d = e
        · rw [if_pos hde] at hp
          by_cases hce : c = e
          · rw [if_pos hce] at hq
            rw [if_pos (hce.trans hde.symm)]
            exact ih ps rest hp hq (by simpa using hlen)
          · rw [if_neg hce] at hq; cases hq
        · rw [if_neg hde] at hp; cases hp

theorem notPrompt_append_crlf {s : List Char} (t : List Char)
    (h : startsWith Prompt s = false) :
    startsWith Prompt (s ++ '\r' :: '\n' :: t) = false := by
  rw [Prompt_eq] at h ⊢
  cases s with
  | nil => simp [startsWith]
  | cons c s' =>
    cases s' with
    | nil =>
      by_cases hc : '>' = c
      · simp [startsWith, hc]
      · simp [startsWith, hc]
    | cons c2 s'' =>
      by_cases h1 : '>' = c
      · by_cases h2 : ' ' = c2
        · exfalso
          rw [startsWith, if_pos h1, startsWith, if_pos h2] at h
          exact absurd h (by simp [startsWith])
        · simp [startsWith, h1, h2]
      · simp [startsWith, h1]

theorem indexOfSeq_none_cons {pat : List Char} {c : Char} {rest : List Char}
    (h : indexOfSeq pat (c :: rest) = none) :
    startsWith pat (c :: rest) = false ∧ indexOfSeq pat rest = none := by
  unfold indexOfSeq at h
  by_cases hs : startsWith pat (c :: rest) = true
  · rw [if_pos hs] at h; cases h
  · rw [if_neg hs] at h
    refine ⟨by simpa using hs, ?_⟩
    cases hfind : indexOfSeq pat rest with
    | none => rfl
    | some i => rw [hfind] at h; cases h

theorem indexOfSeq_crlf_append : ∀ (s t : List Char), indexOfSeq CRLF s = none →
    indexOfSeq CRLF (s ++ '\r' :: '\n' :: t) = some s.length := by
  intro s
  induction s with
  | nil =>
    intro t _
    rw [List.nil_append]
    unfold indexOfSeq
    rw [if_pos (by rw [CRLF_eq]; exact startsWith_append_self ['\r', '\n'] t)]
    rfl
  | cons c s' ih =>
    intro t h
    obtain ⟨hsw, hrec⟩ := indexOfSeq_none_cons h
    show indexOfSeq CRLF (c :: (s' ++ '\r' :: '\n' :: t)) = some (c :: s').length
    unfold indexOfSeq
    rw [if_neg ?hneg]
    · rw [ih t hrec]; rfl
    case hneg =>
      rw [CRLF_eq] at hsw ⊢
      by_cases hc : '\r' = c
      · rw [startsWith, if_pos hc] at hsw ⊢
        cases s' with
        | nil => simp [startsWith]
        | cons d s'' =>
          by_cases hd : '\n' = d
          · exfalso
            rw [startsWith, if_pos hd] at hsw
            exact absurd hsw (by simp [startsWith])
          · simp [startsWith, hd]
      · simp [startsWith, hc]

/-! ## Lemmas about `Splitter` and `splitAll` -/

theorem Splitter_emit {data : List Char} {adv : Nat} {tok : List Char}
    (h : Splitter data true = (adv, some tok)) : data ≠ [] ∧ 1 ≤ adv := by
  by_cases hd : data = []
  · subst hd; unfold Splitter at h; simp at h
  · refine ⟨hd, ?_⟩
    unfold Splitter at h
    rw [if_neg (by simp [hd])] at h
    by_cases hp : startsWith Prompt data = true
    · rw [if_pos hp] at h
      have : adv = Prompt.length := (Prod.mk.injEq .. ▸ h).1.symm
      rw [this]; decide
    · rw [if_neg hp] at h
      cases hfind : indexOfSeq CRLF data with
      | some i =>
        rw [hfind] at h
        have : adv = i + CRLF.length := (Prod.mk.injEq .. ▸ h).1.symm
        have hcrlf : CRLF.length = 2 := rfl
        rw [this]; omega
      | none =>
        rw [hfind, if_pos rfl] at h
        have : adv = data.length := (Prod.mk.injEq .. ▸ h).1.symm
        rw [this]
        exact Nat.succ_le_of_lt (List.length_pos.mpr hd)

theorem splitAllGo_eq_of_le : ∀ (n fuel1 fuel2 : Nat) (data : List Char),
    data.length ≤ n → data.length ≤ fuel1 → data.length ≤ fuel2 →
    splitAllGo fuel1 data = splitAllGo fuel2 data := by
  intro n
  induction n with
  | zero =>
    intro f1 f2 data h _ _
    have hdata : data = [] := List.eq_nil_of_length_eq_zero (Nat.le_zero.mp h)
    subst hdata
    cases f1 <;> cases f2 <;> rfl
  | succ m ih =>
    intro f1 f2 data h h1 h2
    cases f1 with
    | zero =>
      have hdata : data = [] := List.eq_nil_of_length_eq_zero (Nat.le_zero.mp h1)
      subst hdata
      cases f2 <;> rfl
    | succ g1 =>
      cases f2 with
      | zero =>
        have hdata : data = [] := List.eq_nil_of_length_eq_zero (Nat.le_zero.mp h2)
        subst hdata
        rfl
      | succ g2 =>
        simp only [splitAllGo]
        cases hs : Splitter data true with
        | mk adv otok =>
          cases otok with
          | none => rfl
          | some tok =>
            obtain ⟨hne, hadv⟩ := Splitter_emit hs
            have hlen : 1 ≤ data.length := List.length_pos.mpr hne
            have hdrop : (data.drop adv).length ≤ m := by
              rw [List.length_drop]; omega
            have hd1 : (data.drop adv).length ≤ g1 := by
              rw [List.length_drop]; omega
            have hd2 : (data.drop adv).length ≤ g2 := by
              rw [List.length_drop]; omega
            have e1 := ih g1 g2 (data.drop adv) hdrop hd1 hd2
            simp [e1]

theorem splitAllGo_fuel {fuel : Nat} {data : List Char} (h : data.length ≤ fuel) :
    splitAllGo fuel data = splitAll data :=
  splitAllGo_eq_of_le data.length fuel data.length data le_rfl h le_rfl

theorem splitAll_step {data : List Char} {adv : Nat} {tok : List Char}
    (h : Splitter data true = (adv, some tok)) :
    splitAll data = tok :: splitAll (data.drop adv) := by
  obtain ⟨hne, hadv⟩ := Splitter_emit h
  obtain ⟨m, hm⟩ : ∃ m, data.length = m + 1 := by
    cases hd : data with
    | nil => exact absurd hd hne
    | cons c r => exact ⟨r.length, by simp⟩
  unfold splitAll
  rw [hm]
  simp only [splitAllGo, h]
  congr 1
  have hdrop : (data.drop adv).length ≤ m := by
    rw [List.length_drop]; omega
  exact splitAllGo_fuel hdrop

theorem splitAll_seg {s : List Char} (t : List Char)
    (hp : startsWith Prompt s = false) (hc : indexOfSeq CRLF s = none) :
    splitAll (s ++ '\r' :: '\n' :: t) = s :: splitAll t := by
  have hne : s ++ '\r' :: '\n' :: t ≠ [] := by simp
  have htake : (s ++ '\r' :: '\n' :: t).take s.length = s := List.take_left s _
  have hsplit : Splitter (s ++ '\r' :: '\n' :: t) true = (s.length + 2, some s) := by
    unfold Splitter
    rw [if_neg (by simp [hne]), if_neg (by simp [notPrompt_append_crlf t hp]),
        indexOfSeq_crlf_append s t hc]
    show (s.length + CRLF.length, some ((s ++ '\r' :: '\n' :: t).take s.length))
        = (s.length + 2, some s)
    rw [htake]
    rfl
  have hdrop : (s ++ '\r' :: '\n' :: t).drop (s.length + 2) = t := by
    have e : s ++ '\r' :: '\n' :: t = (s ++ ['\r', '\n']) ++ t := by simp
    rw [e]
    have hlen : (s ++ ['\r', '\n']).length = s.length + 2 := by simp
    rw [← hlen]
    exact List.drop_left _ _
  rw [splitAll_step hsplit, hdrop]

theorem splitAll_prompt (t : List Char) :
    splitAll (Prompt ++ t) = Prompt :: splitAll t := by
  have hsplit : Splitter (Prompt ++ t) true = (2, some Prompt) := by
    unfold Splitter
    rw [if_neg (by rw [Prompt_eq]; simp), if_pos (startsWith_append_self Prompt t)]
    have htake : (Prompt ++ t).take Prompt.length = Prompt := List.take_left Prompt t
    rw [htake]
    rfl
  have hdrop : (Prompt ++ t).drop 2 = t := by
    show (Prompt ++ t).drop Prompt.length = t
    exact List.drop_left _ _
  rw [splitAll_step hsplit, hdrop]

theorem splitAll_nil : splitAll [] = [] := rfl

theorem splitAll_last {s : List Char} (hne : s ≠ [])
    (hp : startsWith Prompt s = false) (hc : indexOfSeq CRLF s = none) :
    splitAll s = [s] := by
  have hsplit : Splitter s true = (s.length, some s) := by
    unfold Splitter
    rw [if_neg (by simp [hne]), if_neg (by simp [hp]), hc, if_pos rfl]
  rw [splitAll_step hsplit, List.drop_length, splitAll_nil]

/-! ## Wire items: well-formed CRLF-terminated segments and prompt markers -/

/-- One item of a well-formed wire: a CRLF-terminated segment or the prompt
marker. -/
inductive WireItem
  | seg (s : List Char)
  | mark
deriving DecidableEq, Repr

/-- Bytes an item occupies on the wire. -/
def renderItem : WireItem → List Char
  | .seg s => s ++ CRLF
  | .mark => Prompt

/-- Concatenate a sequence of items into a byte stream. -/
def renderAll (items : List WireItem) : List Char :=
  (items.map renderItem).flatten

/-- The token the `Splitter` should reproduce for an item. -/
def itemToken : WireItem → List Char
  | .seg s => s
  | .mark => Prompt

/-- A segment is well formed when its text contains no CRLF and does not begin
with the prompt marker (the `Splitter` checks the prompt before CRLF). -/
def segWellFormed : WireItem → Prop
  | .seg s => startsWith Prompt s = false ∧ indexOfSeq CRLF s = none
  | .mark => True

instance (it : WireItem) : Decidable (segWellFormed it) :=
  match it with
  | .seg _ => inferInstanceAs (Decidable (_ ∧ _))
  | .mark => inferInstanceAs (Decidable True)

theorem renderAll_cons (it : WireItem) (rest : List WireItem) :
    renderAll (it :: rest) = renderItem it ++ renderAll rest := by
  simp [renderAll]

theorem splitAll_renderAll_append (items : List WireItem) (t : List Char)
    (h : ∀ it ∈ items, segWellFormed it) :
    splitAll (renderAll items ++ t) = items.map itemToken ++ splitAll t := by
  induction items with
  | nil => simp [renderAll]
  | cons it rest ih =>
    have hrest : ∀ x ∈ rest, segWellFormed x := fun x hx => h x (List.mem_cons_of_mem _ hx)
    cases it with
    | seg s =>
      obtain ⟨hp, hc⟩ := h (.seg s) (List.mem_cons_self _ _)
      have e1 : renderAll (WireItem.seg s :: rest) ++ t
          = s ++ '\r' :: '\n' :: (renderAll rest ++ t) := by
        rw [renderAll_cons]
        simp [renderItem, CRLF_eq]
      rw [e1, splitAll_seg _ hp hc, ih hrest]
      rfl
    | mark =>
      have e1 : renderAll (WireItem.mark :: rest) ++ t
          = Prompt ++ (renderAll rest ++ t) := by
        rw [renderAll_cons]
        simp [renderItem]
      rw [e1, splitAll_prompt, ih hrest]
      rfl

/-! ## Lemmas about `Classify` -/

theorem classify_final_of_errorStart {line : List Char}
    (h : startsWith CmeError line = true ∨ startsWith CmsError line = true) :
    Classify line = .TypeFinal := by
  have hne : ∀ b : List Char, startsWith CmeError b = false →
      startsWith CmsError b = false → line ≠ b := by
    intro b hb1 hb2
    rcases h with h | h
    · exact ne_of_startsWith h hb1
    · exact ne_of_startsWith h hb2
  unfold Classify
  rw [if_neg (hne Prompt (by decide) (by decide)), if_neg ?hfin, if_pos h]
  case hfin =>
    rintro (e | e | e | e | e | e) <;>
      (subst e; rcases h with h | h <;> exact absurd h (by decide))

theorem classify_urc_of_newMsg {line : List Char}
    (h : startsWith UrcNewMsg line = true) : Classify line = .TypeURC := by
  have hcme : startsWith CmeError line = false := by
    by_contra hb
    have hb' : startsWith CmeError line = true := by simpa using hb
    have := startsWith_mutual UrcNewMsg CmeError line hb' h (by decide)
    exact absurd this (by decide)
  have hcms : startsWith CmsError line = false := by
    by_contra hb
    have hb' : startsWith CmsError line = true := by simpa using hb
    have := startsWith_mutual UrcNewMsg CmsError line hb' h (by decide)
    exact absurd this (by decide)
  unfold Classify
  rw [if_neg (ne_of_startsWith h (by decide)), if_neg ?hfin, if_neg ?herr,
      if_pos (Or.inl h)]
  case hfin =>
    rintro (e | e | e | e | e | e) <;> (subst e; exact absurd h (by decide))
  case herr =>
    rintro (e | e)
    · rw [hcme] at e; cases e
    · rw [hcms] at e; cases e

theorem classify_data_of_unrecognized {line : List Char}
    (h1 : line ≠ Prompt)
    (h2 : ¬(line = OK ∨ line = ERROR ∨ line = NoCarrier ∨ line = NoDialtone ∨
            line = Busy ∨ line = NoAnswer))
    (h3 : startsWith CmeError line = false) (h4 : startsWith CmsError line = false)
    (h5 : startsWith UrcNewMsg line = false) (h6 : line ≠ UrcCall) :
    Classify line = .TypeData := by
  unfold Classify
  rw [if_neg h1, if_neg h2, if_neg ?herr, if_neg ?hurc]
  case herr =>
    rintro (e | e)
    · rw [h3] at e; cases e
    · rw [h4] at e; cases e
  case hurc =>
    rintro (e | e)
    · rw [h5] at e; cases e
    · exact h6 e

theorem classify_prompt_only {line : List Char}
    (h : Classify line = .TypePrompt) : line = Prompt := by
  by_cases h1 : line = Prompt
  · exact h1
  · exfalso
    unfold Classify at h
    rw [if_neg h1] at h
    by_cases h2 : line = OK ∨ line = ERROR ∨ line = NoCarrier ∨
        line = NoDialtone ∨ line = Busy ∨ line = NoAnswer
    · rw [if_pos h2] at h; cases h
    · rw [if_neg h2] at h
      by_cases h3 : startsWith CmeError line = true ∨ startsWith CmsError line = true
      · rw [if_pos h3] at h; cases h
      · rw [if_neg h3] at h
        by_cases h4 : startsWith UrcNewMsg line = true ∨ line = UrcCall
        · rw [if_pos h4] at h; cases h
        · rw [if_neg h4] at h; cases h

/-! ## Lemmas about the Loop's token processing -/

theorem runTokens_append (s : LoopState) (a b : List (List Char)) :
    runTokens s (a ++ b) = runTokens (runTokens s a) b := by
  induction a generalizing s with
  | nil => rfl
  | cons t ts ih => simp [runTokens, ih]

theorem nonTerminal_cases {t : List Char}
    (h : Classify t ≠ .TypeFinal ∧ Classify t ≠ .TypePrompt) :
    Classify t = .TypeData ∨ Classify t = .TypeURC := by
  cases hc : Classify t
  · exact absurd hc h.1
  · exact Or.inr rfl
  · exact Or.inl rfl
  · exact absurd hc h.2

theorem dispatchToken_data {s : LoopState} {req : commandRequest}
    (hcur : s.currentCmd = some req) {t : List Char}
    (ht : Classify t = .TypeData) :
    dispatchToken s t = { s with currentLines := s.currentLines ++ [t] } := by
  unfold dispatchToken
  rw [ht, hcur]

theorem dispatchToken_urc {s : LoopState} {t : List Char}
    (ht : Classify t = .TypeURC) :
    dispatchToken s t = { s with urcChan := dispatchURC s.urcChan t } := by
  unfold dispatchToken
  rw [ht]

theorem dispatchToken_terminal {s : LoopState} {req : commandRequest}
    (hcur : s.currentCmd = some req) {term : List Char}
    (hterm : Classify term = .TypeFinal ∨ Classify term = .TypePrompt) :
    dispatchToken s term =
      { s with
        currentCmd := none
        currentLines := []
        delivered := s.delivered ++ [(req.id,
          ⟨List.intercalate ['\n'] (s.currentLines ++ [term]),
           if term = OK ∨ Classify term = .TypePrompt then none
           else some (.terminal term)⟩)] } := by
  rcases hterm with hF | hP
  · unfold dispatchToken
    rw [hF, hcur]
    by_cases hOK : term = OK
    · simp [hOK, hF]
    · simp [hOK, hF]
  · unfold dispatchToken
    rw [hP, hcur]
    simp

theorem runTokens_pending (req : commandRequest) :
    ∀ (toks : List (List Char)) (s : LoopState), s.currentCmd = some req →
    (∀ t ∈ toks, Classify t = .TypeData ∨ Classify t = .TypeURC) →
    (runTokens s toks).currentCmd = some req ∧
    (runTokens s toks).currentLines
      = s.currentLines ++ toks.filter (fun t => decide (Classify t = .TypeData)) ∧
    (runTokens s toks).delivered = s.delivered := by
  intro toks
  induction toks with
  | nil =>
    intro s hcur _
    exact ⟨hcur, by simp [runTokens], rfl⟩
  | cons t ts ih =>
    intro s hcur hall
    have ht := hall t (List.mem_cons_self _ _)
    have hts : ∀ x ∈ ts, Classify x = .TypeData ∨ Classify x = .TypeURC :=
      fun x hx => hall x (List.mem_cons_of_mem _ hx)
    rcases ht with hD | hU
    · rw [runTokens, dispatchToken_data hcur hD]
      obtain ⟨h1, h2, h3⟩ := ih ({ s with currentLines := s.currentLines ++ [t] }) hcur hts
      refine ⟨h1, ?_, h3⟩
      rw [h2]
      simp [List.filter_cons, hD]
    · rw [runTokens, dispatchToken_urc hU]
      obtain ⟨h1, h2, h3⟩ := ih ({ s with urcChan := dispatchURC s.urcChan t }) hcur hts
      refine ⟨h1, ?_, h3⟩
      rw [h2]
      have hnd : Classify t ≠ .TypeData := by rw [hU]; intro e; cases e
      simp [List.filter_cons, hnd]

theorem runTokens_no_cmd : ∀ (toks : List (List Char)) (s : LoopState),
    s.currentCmd = none →
    (runTokens s toks).delivered = s.delivered ∧
    (runTokens s toks).currentCmd = none := by
  intro toks
  induction toks with
  | nil => intro s hcur; exact ⟨rfl, hcur⟩
  | cons t ts ih =>
    intro s hcur
    rw [runTokens]
    cases hc : Classify t with
    | TypeURC =>
      rw [dispatchToken_urc hc]
      exact ih ({ s with urcChan := dispatchURC s.urcChan t }) hcur
    | TypeFinal =>
      have : dispatchToken s t = s := by unfold dispatchToken; rw [hc, hcur]
      rw [this]; exact ih s hcur
    | TypeData =>
      have : dispatchToken s t = s := by unfold dispatchToken; rw [hc, hcur]
      rw [this]; exact ih s hcur
    | TypePrompt =>
      have : dispatchToken s t = s := by unfold dispatchToken; rw [hc, hcur]
      rw [this]; exact ih s hcur

/-! ## Lemmas about `trimSpace` -/

theorem dropWhile_append_single {p : Char → Bool} {z : Char} (hz : p z = false) :
    ∀ m : List Char, ((m ++ [z]).dropWhile p) = m.dropWhile p ++ [z] := by
  intro m
  induction m with
  | nil => simp [List.dropWhile, hz]
  | cons c m' ih =>
    by_cases hc : p c = true
    · simp [List.dropWhile_cons, hc, ih]
    · simp [List.dropWhile_cons, hc]

theorem trimSpace_append_ctrlz (m : List Char) :
    trimSpace (m ++ CtrlZ) = trimLeft m ++ CtrlZ := by
  have hz : isSpace '\x1A' = false := by decide
  have e1 : CtrlZ = ['\x1A'] := rfl
  unfold trimSpace trimLeft
  rw [e1, dropWhile_append_single hz m, List.reverse_append]
  have e2 : ['\x1A'].reverse = ['\x1A'] := rfl
  rw [e2]
  have e3 : ('\x1A' :: (m.dropWhile isSpace).reverse).dropWhile isSpace
      = '\x1A' :: (m.dropWhile isSpace).reverse := by
    simp [List.dropWhile_cons, hz]
  show (('\x1A' :: (m.dropWhile isSpace).reverse).dropWhile isSpace).reverse
      = m.dropWhile isSpace ++ ['\x1A']
  rw [e3]
  simp

theorem trimSpace_of_ends {a z : Char} (ha : isSpace a = false)
    (hz : isSpace z = false) (mid : List Char) :
    trimSpace ((a :: mid) ++ [z]) = (a :: mid) ++ [z] := by
  have h1 : ((a :: mid) ++ [z]).dropWhile isSpace = (a :: mid) ++ [z] := by
    simp [List.dropWhile_cons, ha]
  unfold trimSpace
  rw [h1, List.reverse_append]
  have e2 : ([z].reverse ++ (a :: mid).reverse).dropWhile isSpace
      = [z].reverse ++ (a :: mid).reverse := by
    simp [List.dropWhile_cons, hz]
  rw [e2, ← List.reverse_append, List.reverse_reverse]

theorem trimSpace_cmgs (recipient : List Char) :
    trimSpace (cmgsCmd recipient) = cmgsCmd recipient := by
  have e : cmgsCmd recipient
      = ('A' :: ("T+CMGS=\"".data ++ recipient)) ++ ['"'] := by
    show "AT+CMGS=\"".data ++ recipient ++ "\"".data
        = ('A' :: ("T+CMGS=\"".data ++ recipient)) ++ ['"']
    simp
  rw [e, trimSpace_of_ends (by decide) (by decide)]

/-! ## The claim's predicted Loop result, following the spec's words -/

/-- Comparison definition written from the spec sentence "all Data tokens are
delivered to the caller in wire arrival order, followed by exactly one terminal
token": the newline-join of every `Data`-classified token of the tokenized wire
before the first terminal, then that terminal. -/
def specClaimedResponse (wire : List Char) : Option (List Char) :=
  let toks := splitAll wire
  let pre := toks.takeWhile
    (fun t => !(decide (Classify t = .TypeFinal) || decide (Classify t = .TypePrompt)))
  match toks.drop pre.length with
  | [] => none
  | term :: _ =>
    some (List.intercalate ['\n']
      ((pre.filter (fun t => decide (Classify t = .TypeData))) ++ [term]))

/-! ## Claim theorems -/

/-- C1: the claim says the Loop must not accept a second `CommandRequest`
while one is outstanding.  The code's `select` accepts from the intake channel
unconditionally: with request 1 outstanding, a `recvCmd` event for request 2
installs request 2 as the current command and request 1 is dropped without any
response ever being delivered — the claimed invariant does not hold. -/
theorem loop_accepts_second_request_while_outstanding :
    (loopStep ⟨some ⟨CmdAt, 1⟩, [], [], []⟩ (.recvCmd ⟨CmdEchoOff, 2⟩ true)).currentCmd
      = some ⟨CmdEchoOff, 2⟩ ∧
    (loopStep ⟨some ⟨CmdAt, 1⟩, [], [], []⟩ (.recvCmd ⟨CmdEchoOff, 2⟩ true)).delivered
      = [] := by
  decide

/-- C3: a command submitted against a transport that never produces a terminal
token (including one producing no tokens at all) resolves with a timeout
error: the Loop never delivers into the request's `respChan`, and `exec`'s
final `select` has `ctx.Done()` as a live arm, so the caller gets the timeout
error instead of hanging. -/
theorem submit_times_out_without_terminal
    (toks : List (List Char)) (req : commandRequest)
    (h : ∀ t ∈ toks, Classify t ≠ ResponseType.TypeFinal ∧
         Classify t ≠ ResponseType.TypePrompt) :
    execAwait (loopResponse req toks) = ⟨[], some .timeout⟩ := by
  have hall : ∀ t ∈ toks, Classify t = ResponseType.TypeData ∨
      Classify t = ResponseType.TypeURC :=
    fun t ht => nonTerminal_cases (h t ht)
  obtain ⟨h1, h2, h3⟩ := runTokens_pending req toks ⟨some req, [], [], []⟩ rfl hall
  unfold loopResponse
  rw [h3]
  rfl

/-- C3 witness: a stream of one data token (and no terminal) times out. -/
theorem submit_times_out_without_terminal_witness :
    (∀ t ∈ ["+CSQ: 1,99".data], Classify t ≠ ResponseType.TypeFinal ∧
        Classify t ≠ ResponseType.TypePrompt) ∧
    execAwait (loopResponse ⟨CmdAt, 9⟩ ["+CSQ: 1,99".data]) = ⟨[], some .timeout⟩ :=
  ⟨by decide, submit_times_out_without_terminal _ _ (by decide)⟩

/-- C4 counterexample: the claim as stated fails for a CRLF-terminated segment
whose text begins with the prompt marker — the `Splitter` checks the prompt
before CRLF, so the segment `"> a"` splits into the prompt token and `"a"`. -/
theorem tokenizer_roundtrip_cex :
    splitAll (renderAll [WireItem.seg ['>', ' ', 'a']]) = [Prompt, ['a']] ∧
    [WireItem.seg ['>', ' ', 'a']].map itemToken = [['>', ' ', 'a']] ∧
    splitAll (renderAll [WireItem.seg ['>', ' ', 'a']])
      ≠ [WireItem.seg ['>', ' ', 'a']].map itemToken := by
  decide

/-- C4 (amended): for any concatenation of prompt markers and CRLF-terminated
segments that contain no CRLF and do not begin with the prompt marker, the
`Splitter` run to exhaustion reproduces exactly that sequence of segment texts
and markers, including empty segments; a nonempty trailing segment with no
terminator is still emitted once the no-more-data flag is set. -/
theorem tokenizer_roundtrip (items : List WireItem)
    (h : ∀ it ∈ items, segWellFormed it) :
    splitAll (renderAll items) = items.map itemToken ∧
    ∀ trailing : List Char, trailing ≠ [] → startsWith Prompt trailing = false →
      indexOfSeq CRLF trailing = none →
      splitAll (renderAll items ++ trailing) = items.map itemToken ++ [trailing] := by
  constructor
  · have e := splitAll_renderAll_append items [] h
    simpa [splitAll_nil] using e
  · intro tr htr hp hc
    rw [splitAll_renderAll_append items tr h, splitAll_last htr hp hc]

/-- C4 witness: the roundtrip theorem applied to a concrete item sequence
(a segment, a prompt marker, an empty segment) with a trailing fragment. -/
theorem tokenizer_roundtrip_witness :
    (∀ it ∈ [WireItem.seg "OK".data, WireItem.mark, WireItem.seg []],
        segWellFormed it) ∧
    splitAll (renderAll [WireItem.seg "OK".data, WireItem.mark, WireItem.seg []])
      = ["OK".data, Prompt, []] ∧
    splitAll (renderAll [WireItem.seg "OK".data, WireItem.mark, WireItem.seg []]
        ++ "+CSQ".data)
      = ["OK".data, Prompt, [], "+CSQ".data] := by
  have h := tokenizer_roundtrip
    [WireItem.seg "OK".data, WireItem.mark, WireItem.seg []] (by decide)
  refine ⟨by decide, ?_, ?_⟩
  · rw [h.1]; decide
  · rw [h.2 "+CSQ".data (by decide) (by decide) (by decide)]; decide

/-- C5: the classifier's case analysis — the six final literals classify
`Final`; any string with the CME/CMS error prefixes classifies `Final`; any
string with the `+CMTI:` prefix and the exact `RING` literal classify `URC`;
`"> "` classifies `Prompt` and only on exact match; every other string
classifies `Data`. -/
theorem classifier_cases :
    (Classify OK = .TypeFinal ∧ Classify ERROR = .TypeFinal ∧
     Classify NoCarrier = .TypeFinal ∧ Classify NoDialtone = .TypeFinal ∧
     Classify Busy = .TypeFinal ∧ Classify NoAnswer = .TypeFinal) ∧
    (∀ line : List Char, startsWith CmeError line = true →
      Classify line = .TypeFinal) ∧
    (∀ line : List Char, startsWith CmsError line = true →
      Classify line = .TypeFinal) ∧
    (∀ line : List Char, startsWith UrcNewMsg line = true →
      Classify line = .TypeURC) ∧
    Classify UrcCall = .TypeURC ∧
    (Classify Prompt = .TypePrompt ∧
      ∀ line : List Char, Classify line = .TypePrompt → line = Prompt) ∧
    (∀ line : List Char, line ≠ Prompt →
      ¬(line = OK ∨ line = ERROR ∨ line = NoCarrier ∨ line = NoDialtone ∨
        line = Busy ∨ line = NoAnswer) →
      startsWith CmeError line = false → startsWith CmsError line = false →
      startsWith UrcNewMsg line = false → line ≠ UrcCall →
      Classify line = .TypeData) := by
  refine ⟨by decide, ?_, ?_, ?_, by decide, ⟨by decide, ?_⟩, ?_⟩
  · exact fun _ h => classify_final_of_errorStart (Or.inl h)
  · exact fun _ h => classify_final_of_errorStart (Or.inr h)
  · exact fun _ h => classify_urc_of_newMsg h
  · exact fun _ h => classify_prompt_only h
  · exact fun _ h1 h2 h3 h4 h5 h6 => classify_data_of_unrecognized h1 h2 h3 h4 h5 h6

/-- C5 witness: the prefix and fallthrough cases applied at concrete tokens. -/
theorem classifier_cases_witness :
    startsWith CmeError "+CME ERROR: 30".data = true ∧
    Classify "+CME ERROR: 30".data = .TypeFinal ∧
    startsWith UrcNewMsg "+CMTI: \"SM\",1".data = true ∧
    Classify "+CMTI: \"SM\",1".data = .TypeURC ∧
    Classify "+CSQ: 15,99".data = .TypeData :=
  ⟨by decide,
   classifier_cases.2.1 _ (by decide),
   by decide,
   classifier_cases.2.2.2.1 _ (by decide),
   classifier_cases.2.2.2.2.2.2 _ (by decide) (by decide) (by decide) (by decide)
     (by decide) (by decide)⟩

/-- C8: dispatching a URC token is total and touches only the URC sink: the
current command, its accumulated lines and the delivered responses are
unchanged whether or not a command is outstanding; with room in the sink the
URC is appended, and with the sink at capacity it is dropped. -/
theorem urc_dispatch_preserves_command_state (s : LoopState) (tok : List Char)
    (h : Classify tok = ResponseType.TypeURC) :
    (dispatchToken s tok).currentCmd = s.currentCmd ∧
    (dispatchToken s tok).currentLines = s.currentLines ∧
    (dispatchToken s tok).delivered = s.delivered ∧
    (s.urcChan.length < urcCap → (dispatchToken s tok).urcChan = s.urcChan ++ [tok]) ∧
    (¬s.urcChan.length < urcCap → (dispatchToken s tok).urcChan = s.urcChan) := by
  rw [dispatchToken_urc h]
  refine ⟨rfl, rfl, rfl, ?_, ?_⟩
  · intro hlt
    show dispatchURC s.urcChan tok = s.urcChan ++ [tok]
    unfold dispatchURC
    rw [if_pos hlt]
  · intro hge
    show dispatchURC s.urcChan tok = s.urcChan
    unfold dispatchURC
    rw [if_neg hge]

/-- C8 witness: a `+CMTI:` URC dispatched while a command is outstanding, and
one dispatched against a full sink (dropped). -/
theorem urc_dispatch_witness :
    Classify "+CMTI: \"SM\",1".data = ResponseType.TypeURC ∧
    (dispatchToken ⟨some ⟨CmdAt, 1⟩, [], [], []⟩ "+CMTI: \"SM\",1".data).currentCmd
      = some ⟨CmdAt, 1⟩ ∧
    (dispatchToken ⟨none, [], List.replicate urcCap ['x'], []⟩
        "+CMTI: \"SM\",1".data).urcChan
      = List.replicate urcCap ['x'] := by
  refine ⟨by decide, ?_, ?_⟩
  · have h := urc_dispatch_preserves_command_state
      ⟨some ⟨CmdAt, 1⟩, [], [], []⟩ "+CMTI: \"SM\",1".data (by decide)
    rw [h.1]
  · have h := urc_dispatch_preserves_command_state
      ⟨none, [], List.replicate urcCap ['x'], []⟩ "+CMTI: \"SM\",1".data (by decide)
    exact h.2.2.2.2 (by decide)

/-- C10: calling `Loop` while a Loop invocation is already running is rejected
with the dedicated `ErrLoopRunning` error (the `loopRunning` guard at the top
of `Loop` in `part_004`); a fresh modem acquires the loop, and a second
acquisition after a successful one is rejected. -/
theorem loop_running_guard :
    (∀ m : LoopGuard, m.loopRunning = false → loopAcquire m = .ok ⟨true⟩) ∧
    (∀ m m' : LoopGuard, loopAcquire m = .ok m' →
      loopAcquire m' = .error .loopRunning) := by
  constructor
  · intro m h
    unfold loopAcquire
    rw [h]
    rfl
  · intro m m' h
    unfold loopAcquire at h ⊢
    by_cases hm : m.loopRunning = true
    · rw [if_pos hm] at h; cases h
    · rw [if_neg hm] at h
      injection h with h'
      subst h'
      rfl

/-- C10 witness: concrete acquire-then-reacquire run. -/
theorem loop_running_guard_witness :
    loopAcquire ⟨false⟩ = .ok ⟨true⟩ ∧
    loopAcquire ⟨true⟩ = .error .loopRunning :=
  ⟨loop_running_guard.1 ⟨false⟩ rfl,
   loop_running_guard.2 ⟨false⟩ ⟨true⟩ (loop_running_guard.1 ⟨false⟩ rfl)⟩

/-- C2 counterexample: the Loop's scanner goroutine forwards only non-empty
tokens, so an empty wire line (a Data token under `Classify`) never joins the
response.  On the wire `"\r\nOK\r\n"` the delivered text is `"OK"`, while the
claim's "newline-join of all Data tokens followed by the terminal" predicts
`"\nOK"`. -/
theorem loop_result_cex :
    (runTokens ⟨some ⟨CmdAt, 7⟩, [], [], []⟩ (loopFeed "\r\nOK\r\n".data)).delivered
      = [(7, ⟨OK, none⟩)] ∧
    specClaimedResponse "\r\nOK\r\n".data = some ('\n' :: OK) ∧
    OK ≠ '\n' :: OK := by
  decide

/-- C2 (amended): for every accepted command, the delivered result is the
newline-join of all NONEMPTY Data tokens in wire arrival order followed by
exactly one terminal token; an `"OK"` final ends with no error, any other
final ends with an error carrying the terminal literal, and a prompt ends with
no error.  (Empty wire lines are dropped before classification.) -/
theorem loop_result_joined_data_then_terminal
    (wire : List Char) (pre : List (List Char)) (term : List Char)
    (rest : List (List Char)) (req : commandRequest)
    (d : List (Nat × commandResponse)) (q : List (List Char))
    (hsplit : splitAll wire = pre ++ term :: rest)
    (hpre : ∀ t ∈ pre, Classify t = ResponseType.TypeData ∨
        Classify t = ResponseType.TypeURC)
    (hterm : Classify term = ResponseType.TypeFinal ∨
        Classify term = ResponseType.TypePrompt) :
    (runTokens ⟨some req, [], q, d⟩ (loopFeed wire)).delivered
      = d ++ [(req.id,
          ⟨List.intercalate ['\n']
            (((pre.filter (fun t => !t.isEmpty)).filter
                (fun t => decide (Classify t = ResponseType.TypeData))) ++ [term]),
           if term = OK ∨ Classify term = ResponseType.TypePrompt then none
           else some (.terminal term)⟩)] := by
  have htermne : term ≠ [] := by
    intro e
    rcases hterm with h | h <;> (rw [e] at h; exact absurd h (by decide))
  have hfeed : loopFeed wire
      = pre.filter (fun t => !t.isEmpty)
        ++ term :: rest.filter (fun t => !t.isEmpty) := by
    unfold loopFeed
    rw [hsplit, List.filter_append, List.filter_cons]
    have hbt : (!term.isEmpty) = true := by
      cases term with
      | nil => exact absurd rfl htermne
      | cons c r => rfl
    rw [if_pos hbt]
  rw [hfeed, runTokens_append]
  have hmem : ∀ t ∈ pre.filter (fun t => !t.isEmpty),
      Classify t = ResponseType.TypeData ∨ Classify t = ResponseType.TypeURC :=
    fun t ht => hpre t (List.mem_of_mem_filter ht)
  obtain ⟨hc1, hc2, hc3⟩ := runTokens_pending req (pre.filter (fun t => !t.isEmpty))
    ⟨some req, [], q, d⟩ rfl hmem
  rw [runTokens, dispatchToken_terminal hc1 hterm]
  rw [(runTokens_no_cmd (rest.filter (fun t => !t.isEmpty)) _ rfl).1]
  rw [hc3, hc2]
  rfl

/-- C2 witness: a data line then `"OK"` delivers the joined text with no error,
via the amended theorem. -/
theorem loop_result_joined_witness :
    splitAll "+CSQ: 15,99\r\nOK\r\n".data = ["+CSQ: 15,99".data] ++ OK :: [] ∧
    (∀ t ∈ ["+CSQ: 15,99".data], Classify t = ResponseType.TypeData ∨
        Classify t = ResponseType.TypeURC) ∧
    (Classify OK = ResponseType.TypeFinal ∨ Classify OK = ResponseType.TypePrompt) ∧
    (runTokens ⟨some ⟨"AT+CSQ".data, 3⟩, [], [], []⟩
        (loopFeed "+CSQ: 15,99\r\nOK\r\n".data)).delivered
      = [(3, ⟨"+CSQ: 15,99\nOK".data, none⟩)] := by
  refine ⟨by decide, by decide, by decide, ?_⟩
  have h := loop_result_joined_data_then_terminal "+CSQ: 15,99\r\nOK\r\n".data
    ["+CSQ: 15,99".data] OK [] ⟨"AT+CSQ".data, 3⟩ [] []
    (by decide) (by decide) (by decide)
  rw [h]
  decide

/-- C7: when the text returned by the first `SendSMS` submission does not
contain the prompt marker (for example when the first read yields
`"ERROR\r\n"`), `SendSMS` returns an error and the message body is never
written — only the `AT+CMGS` line reaches the transport. -/
theorem sendsms_no_prompt_no_body
    (recipient message wire1 wire2 : List Char)
    (h : containsSeq Prompt (execModel ⟨cmgsCmd recipient, 1⟩ wire1).response
        = false) :
    (SendSMS recipient message wire1 wire2).1 = [wireOf (cmgsCmd recipient)] ∧
    (SendSMS recipient message wire1 wire2).2.isSome = true := by
  unfold SendSMS
  cases herr : (execModel ⟨cmgsCmd recipient, 1⟩ wire1).err with
  | some e => exact ⟨rfl, rfl⟩
  | none =>
    rw [h]
    exact ⟨rfl, rfl⟩

/-- C7 witness: an `"ERROR"` response to `AT+CMGS` aborts before the body. -/
theorem sendsms_no_prompt_witness :
    containsSeq Prompt
      (execModel ⟨cmgsCmd "+1".data, 1⟩ "ERROR\r\n".data).response = false ∧
    (SendSMS "+1".data "Hello".data "ERROR\r\n".data "x".data).1
      = [wireOf (cmgsCmd "+1".data)] ∧
    (SendSMS "+1".data "Hello".data "ERROR\r\n".data "x".data).2.isSome = true :=
  ⟨by decide,
   (sendsms_no_prompt_no_body "+1".data "Hello".data "ERROR\r\n".data "x".data
     (by decide)).1,
   (sendsms_no_prompt_no_body "+1".data "Hello".data "ERROR\r\n".data "x".data
     (by decide)).2⟩

/-- C6 counterexample: the claim's "raw message body" is not what reaches the
wire for every message — `exec` applies `strings.TrimSpace` to the command
text, so a message with leading whitespace is trimmed: sending `" Hi"` writes
`"Hi\x1a\r"`, not `" Hi\x1a\r"`. -/
theorem sendsms_body_cex :
    (SendSMS "+1".data " Hi".data "> ".data "+CMGS: 5\r\nOK\r\n".data).1
      = ["AT+CMGS=\"+1\"\r".data, "Hi\x1a\r".data] ∧
    "Hi\x1a\r".data ≠ " Hi".data ++ CtrlZ ++ ['\r'] := by
  decide

/-- C6 (amended): `SendSMS` always writes `AT+CMGS="<recipient>"` terminated
with a single carriage return; after a successful prompt phase it writes the
message body with leading whitespace removed, followed immediately by the
Ctrl-Z byte and the carriage return; and the concrete exchange — write
`AT+CMGS="+1234567890"\r`, read `"> "`, write `"Hello World\x1a\r"`, read
`"+CMGS: 123\r\nOK\r\n"` — returns success with no error. -/
theorem sendsms_body_trimmed :
    (∀ recipient message wire1 wire2 : List Char,
      (SendSMS recipient message wire1 wire2).1.head?
        = some (cmgsCmd recipient ++ ['\r']) ∧
      ((execModel ⟨cmgsCmd recipient, 1⟩ wire1).err = none →
        containsSeq Prompt (execModel ⟨cmgsCmd recipient, 1⟩ wire1).response
          = true →
        (SendSMS recipient message wire1 wire2).1
          = [cmgsCmd recipient ++ ['\r'],
             trimLeft message ++ CtrlZ ++ ['\r']])) ∧
    SendSMS "+1234567890".data "Hello World".data "> ".data
        "+CMGS: 123\r\nOK\r\n".data
      = (["AT+CMGS=\"+1234567890\"\r".data, "Hello World\x1a\r".data], none) := by
  refine ⟨?_, by decide⟩
  intro recipient message wire1 wire2
  have hw1 : wireOf (cmgsCmd recipient) = cmgsCmd recipient ++ ['\r'] := by
    unfold wireOf
    rw [trimSpace_cmgs]
  have hw2 : wireOf (message ++ CtrlZ) = trimLeft message ++ CtrlZ ++ ['\r'] := by
    unfold wireOf
    rw [trimSpace_append_ctrlz]
  unfold SendSMS
  cases herr : (execModel ⟨cmgsCmd recipient, 1⟩ wire1).err with
  | some e =>
    constructor
    · simp [hw1]
    · intro hnone _
      exact Option.noConfusion hnone
  | none =>
    cases hprompt :
        containsSeq Prompt (execModel ⟨cmgsCmd recipient, 1⟩ wire1).response with
    | false =>
      constructor
      · simp [hw1]
      · intro _ htrue
        exact Bool.noConfusion htrue
    | true =>
      constructor
      · cases h2 : (execModel ⟨message ++ CtrlZ, 2⟩ wire2).err with
        | some e => simp [hw1]
        | none =>
          cases h3 :
              containsSeq OK (execModel ⟨message ++ CtrlZ, 2⟩ wire2).response with
          | false => simp [hw1]
          | true => simp [hw1]
      · intro _ _
        cases h2 : (execModel ⟨message ++ CtrlZ, 2⟩ wire2).err with
        | some e => simp [hw1, hw2]
        | none =>
          cases h3 :
              containsSeq OK (execModel ⟨message ++ CtrlZ, 2⟩ wire2).response with
          | false => simp [hw1, hw2]
          | true => simp [hw1, hw2]

/-- C6 witness: the amended theorem's body-write clause applied to the
leading-whitespace message. -/
theorem sendsms_body_trimmed_witness :
    (execModel ⟨cmgsCmd "+1".data, 1⟩ "> ".data).err = none ∧
    containsSeq Prompt (execModel ⟨cmgsCmd "+1".data, 1⟩ "> ".data).response
      = true ∧
    (SendSMS "+1".data " Hi".data "> ".data "+CMGS: 5\r\nOK\r\n".data).1
      = [cmgsCmd "+1".data ++ ['\r'], trimLeft " Hi".data ++ CtrlZ ++ ['\r']] :=
  ⟨by decide, by decide,
   (sendsms_body_trimmed.1 "+1".data " Hi".data "> ".data
       "+CMGS: 5\r\nOK\r\n".data).2 (by decide) (by decide)⟩

/-! ## Bring-up lemmas for C9 -/

theorem pollSIM_progress (mr : Nat) :
    ∀ (polls : List commandResponse) (fuel : Nat) (acc : List (List Char))
      (ready : commandResponse) (rest : List commandResponse),
      polls.length < fuel →
      (∀ p ∈ polls, p.err = none ∧ containsSeq SimReady p.response = false) →
      ready.err = none → containsSeq SimReady ready.response = true →
      pollSIM mr fuel (polls ++ ready :: rest) acc
        = (acc ++ List.replicate (polls.length + 1) CmdSimStatus, rest, none) := by
  intro polls
  induction polls with
  | nil =>
    intro fuel acc ready rest hf hall herr hrdy
    cases fuel with
    | zero => omega
    | succ g =>
      unfold pollSIM
      simp only [execDirectS, List.nil_append]
      rw [herr, if_pos hrdy]
      rfl
  | cons p ps ih =>
    intro fuel acc ready rest hf hall herr hrdy
    cases fuel with
    | zero => simp at hf
    | succ g =>
      obtain ⟨hperr, hprdy⟩ := hall p (List.mem_cons_self _ _)
      have hops : ∀ x ∈ ps, x.err = none ∧ containsSeq SimReady x.response = false :=
        fun x hx => hall x (List.mem_cons_of_mem _ hx)
      have hf' : ps.length < g := by
        simp only [List.length_cons] at hf
        omega
      unfold pollSIM
      simp only [List.cons_append, execDirectS]
      rw [hperr, if_neg (by simp [hprdy])]
      rw [ih g (acc ++ [CmdSimStatus]) ready rest hf' hops herr hrdy]
      simp [List.replicate_succ, List.append_assoc]

theorem initModem_pin_flow
    (pin : List Char) (r1 r2 r3 r4 r5 ready r7 : commandResponse)
    (polls rest : List commandResponse)
    (hpin : pin ≠ [])
    (h1 : expectOkRes r1 = none) (h2 : expectOkRes r2 = none)
    (h3 : expectOkRes r3 = none)
    (h4e : r4.err = none)
    (h4p : containsSeq SimPin r4.response = true)
    (h4r : containsSeq SimReady r4.response = false)
    (h5 : expectOkRes r5 = none)
    (hpolls : ∀ p ∈ polls, p.err = none ∧ containsSeq SimReady p.response = false)
    (hlen : polls.length < 60)
    (hre : ready.err = none) (hrr : containsSeq SimReady ready.response = true)
    (h7 : expectOkRes r7 = none) :
    initModem pin (r1 :: r2 :: r3 :: r4 :: r5 :: (polls ++ ready :: r7 :: rest))
      = ([CmdAt, CmdEchoOff, CmdVerboseErrors, CmdSimStatus, pinUnlockCmd pin]
          ++ List.replicate (polls.length + 1) CmdSimStatus ++ [CmdSetTextMode],
         rest, none) := by
  unfold initModem
  simp only [execDirectS]
  rw [h1, h2, h3, h4e, if_neg (by simp [h4r]), if_pos h4p, if_neg hpin, h5]
  unfold waitForSIMReady
  rw [show (resolvePoll ⟨0, 0, 0⟩).2.2 = 60 from rfl]
  rw [pollSIM_progress 60 polls 60 [] ready (r7 :: rest) hlen hpolls hre hrr]
  simp only [execDirectS]
  rw [h7]
  simp [List.append_assoc]

theorem initModem_pin_missing
    (r1 r2 r3 r4 : commandResponse) (rest : List commandResponse)
    (h1 : expectOkRes r1 = none) (h2 : expectOkRes r2 = none)
    (h3 : expectOkRes r3 = none)
    (h4e : r4.err = none)
    (h4p : containsSeq SimPin r4.response = true)
    (h4r : containsSeq SimReady r4.response = false) :
    (initModem [] (r1 :: r2 :: r3 :: r4 :: rest)).2.2
      = some InitError.simPinRequired := by
  unfold initModem
  simp only [execDirectS]
  rw [h1, h2, h3, h4e, if_neg (by simp [h4r]), if_pos h4p, if_pos trivial]

/-- C9: during bring-up the poll defaults are a 500ms interval and a 30s
timeout, with the retry count derived as timeout/interval = 60 when neither
knob is set; when the SIM-status query reports the PIN-required literal and a
PIN is configured, `init` submits the PIN-unlock command and then polls the
SIM-status query (bounded by the retry count) until the ready literal is
observed, then proceeds to SMS text-mode selection; with no PIN configured it
fails with the `SIMPinRequired` error instead. -/
theorem bringup_pin_flow :
    resolvePoll ⟨0, 0, 0⟩ = (500000000, 30000000000, 60) ∧
    (∀ (pin : List Char) (r1 r2 r3 r4 r5 ready r7 : commandResponse)
        (polls rest : List commandResponse),
      pin ≠ [] →
      expectOkRes r1 = none → expectOkRes r2 = none → expectOkRes r3 = none →
      r4.err = none → containsSeq SimPin r4.response = true →
      containsSeq SimReady r4.response = false →
      expectOkRes r5 = none →
      (∀ p ∈ polls, p.err = none ∧ containsSeq SimReady p.response = false) →
      polls.length < 60 →
      ready.err = none → containsSeq SimReady ready.response = true →
      expectOkRes r7 = none →
      initModem pin (r1 :: r2 :: r3 :: r4 :: r5 :: (polls ++ ready :: r7 :: rest))
        = ([CmdAt, CmdEchoOff, CmdVerboseErrors, CmdSimStatus, pinUnlockCmd pin]
            ++ List.replicate (polls.length + 1) CmdSimStatus
            ++ [CmdSetTextMode], rest, none)) ∧
    (∀ (r1 r2 r3 r4 : commandResponse) (rest : List commandResponse),
      expectOkRes r1 = none → expectOkRes r2 = none → expectOkRes r3 = none →
      r4.err = none → containsSeq SimPin r4.response = true →
      containsSeq SimReady r4.response = false →
      (initModem [] (r1 :: r2 :: r3 :: r4 :: rest)).2.2
        = some InitError.simPinRequired) := by
  refine ⟨by decide, ?_, ?_⟩
  · intro pin r1 r2 r3 r4 r5 ready r7 polls rest hpin h1 h2 h3 h4e h4p h4r h5
      hp hlen hre hrr h7
    exact initModem_pin_flow pin r1 r2 r3 r4 r5 ready r7 polls rest hpin h1 h2
      h3 h4e h4p h4r h5 hp hlen hre hrr h7
  · intro r1 r2 r3 r4 rest h1 h2 h3 h4e h4p h4r
    exact initModem_pin_missing r1 r2 r3 r4 rest h1 h2 h3 h4e h4p h4r

/-- C9 witness: a concrete PIN-required bring-up with one not-ready poll, and
a concrete PIN-less bring-up that fails with SIMPinRequired. -/
theorem bringup_pin_flow_witness :
    containsSeq SimPin "+CPIN: SIM PIN\nOK".data = true ∧
    initModem "1234".data
      [⟨"OK".data, none⟩, ⟨"OK".data, none⟩, ⟨"OK".data, none⟩,
       ⟨"+CPIN: SIM PIN\nOK".data, none⟩, ⟨"OK".data, none⟩,
       ⟨"+CPIN: SIM PIN\nOK".data, none⟩, ⟨"+CPIN: READY\nOK".data, none⟩,
       ⟨"OK".data, none⟩]
      = ([CmdAt, CmdEchoOff, CmdVerboseErrors, CmdSimStatus,
          pinUnlockCmd "1234".data] ++ List.replicate 2 CmdSimStatus
          ++ [CmdSetTextMode], [], none) ∧
    (initModem []
      [⟨"OK".data, none⟩, ⟨"OK".data, none⟩, ⟨"OK".data, none⟩,
       ⟨"+CPIN: SIM PIN\nOK".data, none⟩]).2.2
      = some InitError.simPinRequired := by
  refine ⟨by decide, ?_, ?_⟩
  · exact bringup_pin_flow.2.1 "1234".data ⟨"OK".data, none⟩ ⟨"OK".data, none⟩
      ⟨"OK".data, none⟩ ⟨"+CPIN: SIM PIN\nOK".data, none⟩ ⟨"OK".data, none⟩
      ⟨"+CPIN: READY\nOK".data, none⟩ ⟨"OK".data, none⟩
      [⟨"+CPIN: SIM PIN\nOK".data, none⟩] []
      (by decide) (by decide) (by decide) (by decide) (by decide) (by decide)
      (by decide) (by decide) (by decide) (by decide) (by decide) (by decide)
      (by decide)
  · exact bringup_pin_flow.2.2 ⟨"OK".data, none⟩ ⟨"OK".data, none⟩
      ⟨"OK".data, none⟩ ⟨"+CPIN: SIM PIN\nOK".data, none⟩ []
      (by decide) (by decide) (by decide) (by decide) (by decide) (by decide)
